import Mathlib

/-!
# Shallow embedding of the twilly conversation core

This file embeds the conversation state machine of the repository:

* `src/SmsCookie/index.ts` — the persisted conversation state (`SmsCookie`) and its
  transition helpers (`addQuestionAttempt`, `completeInteraction`, `handleTrigger`,
  `incrementFlowAction`, `startQuestion`, `updateContext`).
* `src/Flows/Controller.ts` — `FlowController` with `getCurrentFlow`,
  `resolveActionFromState` and `resolveNextStateFromAction`.

The `Action`, `Flow` and `FlowSchema` classes live in `src/Actions` and `src/Flows`,
whose sources are not in the snapshot; their data content is modelled from the spec
at exactly the interface the controller and cookie code consume (names, flags,
context snapshots).  TypeScript `throw` is embedded as `Except.error`; JS objects
built by spread (`{...state, f: v}`) are embedded as functional record updates;
`Date`/identifier fields irrelevant to control flow are kept as plain data.
-/

namespace Twilly

/-- Modelled from the spec: an action's accumulated context snapshot (the value of
`action[ActionGetContext]()` in `src/Actions`, absent from the snapshot).  The
`messageSid` component is separated out because `updateContext` in
`src/SmsCookie/index.ts` merges delivery receipts for `Question` actions. -/
structure ActionContext where
  fields : List (String × String)
  messageSid : List String
deriving DecidableEq, Repr

/-- An `interactionContext` entry: `{...getActionContext(state, flow, action), flowName: flow.name}`
from `updateContext` in `src/SmsCookie/index.ts`. -/
structure TaggedContext where
  context : ActionContext
  flowName : String
deriving DecidableEq, Repr

/-- Modelled from the spec: the `Action` sum type (`src/Actions`, absent from the
snapshot), restricted to the data the controller and cookie code read: the assigned
`name` (`none` when never assigned, e.g. an `Exit` built by the exit-keyword test),
the context snapshot, the `Question` evaluation flags (`isAnswered`, `isFailed`,
`continueOnFail`) and delivery receipts (`sid`), and a `Trigger`'s target `flowName`.
A `Question`'s flags carry the outcome of its evaluation against the inbound message. -/
inductive Action where
  | message (name : Option String) (context : ActionContext)
  | reply (name : Option String) (context : ActionContext)
  | question (name : Option String) (isAnswered : Bool) (isFailed : Bool)
      (continueOnFail : Bool) (context : ActionContext) (sid : List String)
  | trigger (name : Option String) (flowName : String) (context : ActionContext)
  | exit (name : Option String) (body : String) (context : ActionContext)
deriving DecidableEq, Repr

/-- The action's assigned name (`action.name`). -/
def Action.name : Action → Option String
  | .message n _ => n
  | .reply n _ => n
  | .question n _ _ _ _ _ => n
  | .trigger n _ _ => n
  | .exit n _ _ => n

/-- The action's own context snapshot (`action[ActionGetContext]()`). -/
def Action.getContext : Action → ActionContext
  | .message _ c => c
  | .reply _ c => c
  | .question _ _ _ _ c _ => c
  | .trigger _ _ c => c
  | .exit _ _ c => c

/-- `action[ActionSetName](n)` from `src/Actions`, modelled from the spec: assigns
the step's declared name onto the action. -/
def Action.setName : Action → String → Action
  | .message _ c, n => .message (some n) c
  | .reply _ c, n => .reply (some n) c
  | .question _ a f k c s, n => .question (some n) a f k c s
  | .trigger _ fl c, n => .trigger (some n) fl c
  | .exit _ b c, n => .exit (some n) b c

abbrev FlowContext := List (String × ActionContext)
abbrev UserCtx := List (String × String)

/-- Modelled from the spec: one registered step of a `Flow` (`src/Flows/Flow.ts`,
absent from the snapshot): a declared action name plus its resolver.  The resolver
receives the (deep-copied, hence by-value) flow context and user context and
produces an `Action`, or `none` when it produces a value that is not a recognized
`Action` (the `instanceof Action` check in the controller). -/
structure FlowStep where
  actionName : String
  resolver : FlowContext → UserCtx → Option Action

/-- Modelled from the spec: a `Flow` (`src/Flows/Flow.ts`, absent from the snapshot):
a unique name plus the ordered list of registered steps. -/
structure Flow where
  name : String
  steps : List FlowStep

/-- `Flow.length`: the number of registered steps. -/
def Flow.length (f : Flow) : Nat := f.steps.length

/-- `flow[FlowActionNames]`: the declared action names of the flow. -/
def Flow.actionNames (f : Flow) : List String := f.steps.map (·.actionName)

/-- `flow[FlowActionNames].has(action.name)`: membership of a (possibly unassigned)
action name; `Set.has(undefined)` is `false` in JS, hence `none ↦ false`. -/
def Flow.hasActionName (f : Flow) : Option String → Bool
  | some n => f.actionNames.contains n
  | none => false

/-- `flow[FlowSelectActionResolver](key)`: the resolver at position `key`, or
`none` when the position is out of range. -/
def Flow.selectActionResolver (f : Flow) (key : Nat) :
    Option (FlowContext → UserCtx → Option Action) :=
  (f.steps.get? key).map (·.resolver)

/-- `flow[FlowSelectActionName](key)`: the declared name at position `key`. -/
def Flow.selectActionName (f : Flow) (key : Nat) : Option String :=
  (f.steps.get? key).map (·.actionName)

/-- Modelled from the spec: the evaluated schema (`evaluateSchema` in
`src/Flows/index.ts`, absent from the snapshot): the flat mapping from flow name to
`Flow` obtained by depth-first traversal, with unique names, containing the root
under its own name, and each `Flow` instance appearing at most once. -/
abbrev EvaluatedSchema := List (String × Flow)

/-- `schema.has(name)`. -/
def schemaHas (sch : EvaluatedSchema) (n : String) : Bool := (sch.lookup n).isSome

/-- `FlowController` (`src/Flows/Controller.ts`): the root flow, the optional
evaluated schema, and the configured exit-keyword test (always a function after
construction — the constructor rejects non-functions; the async `Promise<boolean>`
variant is embedded as its resolved value). -/
structure FlowController where
  root : Flow
  schema : Option EvaluatedSchema
  testForExit : String → Bool

/-- The inbound webhook request body (`src/twllio/TwilioWebhookRequest.ts`),
restricted to the `Body` field, the only one the controller reads. -/
structure TwilioWebhookRequestBody where
  Body : String
deriving DecidableEq, Repr

/-- The inbound webhook request, restricted to what the controller reads. -/
structure TwilioWebhookRequest where
  body : TwilioWebhookRequestBody
deriving DecidableEq, Repr

/-- The question sub-state of the cookie (`SmsCookie.question`). -/
structure QuestionState where
  attempts : List String
  isAnswering : Bool
deriving DecidableEq, Repr

/-- `SmsCookie` from `src/SmsCookie/index.ts`.  `flow: string` with `null` meaning
unset is embedded as `Option String`; `flowKey: string | number` is embedded as
`Nat` (every use in the source first applies `Number(...)`, and `handleTrigger` and
`incrementFlowAction` write numbers); `createdAt: Date` is embedded as `Nat` and
`from`/`interactionId` as plain strings, none of which influence control flow. -/
structure SmsCookie where
  createdAt : Nat
  fromNumber : String
  flow : Option String
  flowContext : FlowContext
  flowKey : Nat
  interactionContext : List TaggedContext
  interactionComplete : Bool
  interactionId : String
  isComplete : Bool
  question : QuestionState
deriving DecidableEq, Repr

/-- JS truthiness of the cookie's `flow` field: `!state.flow` is `true` for `null`
(unset) and for the empty string. -/
def isFalsyName : Option String → Bool
  | none => true
  | some s => s == ""

/-- `addQuestionAttempt` from `src/SmsCookie/index.ts`. -/
def addQuestionAttempt (state : SmsCookie) (attempt : String) : SmsCookie :=
  { state with
    question := { state.question with
      attempts := state.question.attempts ++ [attempt] } }

/-- `completeInteraction` from `src/SmsCookie/index.ts`. -/
def completeInteraction (state : SmsCookie) : SmsCookie :=
  { state with isComplete := true }

/-- `handleTrigger` from `src/SmsCookie/index.ts`; the source receives the
`Trigger` action and reads `trigger.flowName`, passed here directly. -/
def handleTrigger (state : SmsCookie) (flowName : String) : SmsCookie :=
  { state with flow := some flowName, flowKey := 0, flowContext := [] }

/-- `incrementFlowAction` from `src/SmsCookie/index.ts`: increments
`Number(state.flowKey)`; when the incremented key equals `flow.length` it returns
`completeInteraction(state)` — the original `state`, so `flowKey` is left at its
old value on that path. -/
def incrementFlowAction (state : SmsCookie) (flow : Flow) : SmsCookie :=
  let newKey := state.flowKey + 1
  if newKey = flow.length then completeInteraction state
  else { state with flowKey := newKey }

/-- `startQuestion` from `src/SmsCookie/index.ts`. -/
def startQuestion (state : SmsCookie) : SmsCookie :=
  { state with question := { attempts := [], isAnswering := true } }

/-- `recordQuestionMessageSid` from `src/SmsCookie/index.ts`:
`(state.flowContext[question.name] || {}).messageSid || []` concatenated with the
question's own `sid`. -/
def recordQuestionMessageSid (state : SmsCookie) (qname : Option String)
    (sid : List String) : List String :=
  let prevSids :=
    match qname with
    | some n =>
      match state.flowContext.lookup n with
      | some ctx => ctx.messageSid
      | none => []
    | none => []
  prevSids ++ sid

/-- `getActionContext` from `src/SmsCookie/index.ts` (its `flow` parameter is
unused in the source as well): for a `Question` the snapshot's `messageSid` is the
accumulated receipt list, otherwise the snapshot is the action's own context. -/
def getActionContext (state : SmsCookie) (_flow : Flow) (action : Action) :
    ActionContext :=
  match action with
  | .question name _ _ _ ctx sid =>
    { ctx with messageSid := recordQuestionMessageSid state name sid }
  | _ => action.getContext

/-- JS object spread-with-key `{...m, [k]: v}` on the flow context: replaces the
value at an existing key in place, otherwise appends the new key. -/
def upsertContext (m : FlowContext) (k : String) (v : ActionContext) : FlowContext :=
  if (m.lookup k).isSome then
    m.map (fun p => if p.1 = k then (k, v) else p)
  else m ++ [(k, v)]

/-- The in-place assignment `if (!state.flow) state.flow = flow.name;` inside
`updateContext` (`src/SmsCookie/index.ts`): the value of the `state` object after
that line has run. -/
def flowFix (state : SmsCookie) (flow : Flow) : SmsCookie :=
  if isFalsyName state.flow then { state with flow := some flow.name } else state

/-- The object `updateContext` returns on its success path, built from the
(possibly flow-fixed) state. -/
def applyUpdate (state : SmsCookie) (flow : Flow) (action : Action) : SmsCookie :=
  let state := flowFix state flow
  let ctx := getActionContext state flow action
  { state with
    flowContext := upsertContext state.flowContext (action.name.getD "undefined") ctx,
    interactionContext :=
      state.interactionContext ++ [{ context := ctx, flowName := flow.name }] }

/-- `updateContext` from `src/SmsCookie/index.ts`, embedded with its side effect on
the caller's object made explicit.  The source contains the in-place assignment
`if (!state.flow) state.flow = flow.name;` executed after the action-name check and
before building the returned object; the first component of the result is the value
of the caller's `state` object after the call (mutated exactly when the check passed
and `state.flow` was falsy), the second is the returned cookie or the thrown error. -/
def updateContextMut (state : SmsCookie) (flow : Flow) (action : Action) :
    SmsCookie × Except String SmsCookie :=
  if !(flow.hasActionName action.name) then
    (state, .error ("Flow " ++ flow.name ++ " does not have an action named "
      ++ action.name.getD "undefined"))
  else
    (flowFix state flow, .ok (applyUpdate state flow action))

/-- The value `updateContext` returns (or the error it throws). -/
def updateContext (state : SmsCookie) (flow : Flow) (action : Action) :
    Except String SmsCookie :=
  (updateContextMut state flow action).2

/-- `FlowController.getCurrentFlow` from `src/Flows/Controller.ts`. -/
def getCurrentFlow (c : FlowController) (state : SmsCookie) : Except String Flow :=
  if isFalsyName state.flow || state.flow == some c.root.name then
    .ok c.root
  else
    match c.schema with
    | none =>
      .error ("Received invalid flow name in SMS cookie: " ++ state.flow.getD "")
    | some sch =>
      match sch.lookup (state.flow.getD "") with
      | none =>
        .error ("Received invalid flow name in SMS cookie: " ++ state.flow.getD "")
      | some f => .ok f

/-- `FlowController.resolveActionFromState` from `src/Flows/Controller.ts`.  The
async resolver call is embedded as its resolved value; `deepCopy` of the flow
context is the identity on immutable values; the `QuestionEvaluate` step (in
`src/Actions`, absent from the snapshot) classifies the inbound message with the
question's user-supplied validator, and its outcome is carried by the flags on the
resolver-produced `question` value. -/
def resolveActionFromState (c : FlowController) (req : TwilioWebhookRequest)
    (state : SmsCookie) (userCtx : UserCtx) : Except String (Option Action) :=
  if state.isComplete then
    .ok none
  else if c.testForExit req.body.Body then
    .ok (some (.exit none req.body.Body { fields := [], messageSid := [] }))
  else
    let key := state.flowKey
    match getCurrentFlow c state with
    | .error e => .error e
    | .ok currFlow =>
      match currFlow.selectActionResolver key with
      | none => .ok none
      | some resolver =>
        match resolver state.flowContext userCtx with
        | none => .ok none
        | some action =>
          .ok (some (action.setName ((currFlow.selectActionName key).getD "")))

/-- `FlowController.resolveNextStateFromAction` from `src/Flows/Controller.ts`.
`pipeSmsCookieUpdates(f, g)(s)` applies `f` then `g` (the source composes the
updates in listed order, per the spec: "record context ... then ...").  The `null`
(non-`Action`) argument case is `action = none`.  The identity check
`currFlow === this.root` holds exactly when `getCurrentFlow` took its first branch
(the evaluated schema maps the root's own name to the root and never aliases the
root instance under another name), so it is embedded as that branch's condition.
In the `Question` branch the source rebinds its local `state` variable to the
fresh object returned by `addQuestionAttempt`. -/
def resolveNextStateFromAction (c : FlowController) (req : TwilioWebhookRequest)
    (state : SmsCookie) (action : Option Action) : Except String SmsCookie :=
  match getCurrentFlow c state with
  | .error e => .error e
  | .ok currFlow =>
    match action with
    | none => .ok (completeInteraction state)
    | some a =>
      match a with
      | .exit _ _ _ =>
        (updateContext state currFlow a).map completeInteraction
      | .question _ isAnswered isFailed continueOnFail _ _ =>
        let state :=
          if state.question.isAnswering then addQuestionAttempt state req.body.Body
          else state
        if isAnswered then
          (updateContext state currFlow a).map (incrementFlowAction · currFlow)
        else if isFailed then
          if continueOnFail then
            (updateContext state currFlow a).map (incrementFlowAction · currFlow)
          else
            (updateContext state currFlow a).map completeInteraction
        else if state.question.isAnswering then
          updateContext state currFlow a
        else
          updateContext (startQuestion state) currFlow a
      | .trigger _ tname _ =>
        if (isFalsyName state.flow || state.flow == some c.root.name)
            && c.schema.isNone then
          .error "Cannot use Trigger action without a defined Flow schema"
        else if !(tname == c.root.name
            || c.schema.elim false (fun sch => schemaHas sch tname)) then
          .error "Trigger constructors expect a name of an existing Flow"
        else
          (updateContext state currFlow a).map (fun s => handleTrigger s tname)
      | _ =>
        (updateContext state currFlow a).map (incrementFlowAction · currFlow)

/-- The value of the caller's `state` object after `resolveNextStateFromAction`
returns or throws.  The only mutation in the call tree is `updateContext`'s
in-place `if (!state.flow) state.flow = flow.name;`; it reaches the caller's object
exactly on the branches that pass `state` itself to `updateContext`: `Exit`, a
successful `Trigger`, the default `Reply`/`Message` branch, and an
answered/failed `Question` when the cookie was not answering.  On the answering
paths the local `state` was rebound to the fresh object returned by
`addQuestionAttempt`, and on the pending path `startQuestion` returns a fresh
object, so the caller's object is untouched there; every error is thrown before
the assignment runs. -/
def resolveNextStateInputAfter (c : FlowController) (_req : TwilioWebhookRequest)
    (state : SmsCookie) (action : Option Action) : SmsCookie :=
  match getCurrentFlow c state with
  | .error _ => state
  | .ok currFlow =>
    match action with
    | none => state
    | some a =>
      match a with
      | .exit _ _ _ => (updateContextMut state currFlow a).1
      | .question _ isAnswered isFailed _ _ _ =>
        if state.question.isAnswering then state
        else if isAnswered || isFailed then (updateContextMut state currFlow a).1
        else state
      | .trigger _ tname _ =>
        if (isFalsyName state.flow || state.flow == some c.root.name)
            && c.schema.isNone then
          state
        else if !(tname == c.root.name
            || c.schema.elim false (fun sch => schemaHas sch tname)) then
          state
        else (updateContextMut state currFlow a).1
      | _ => (updateContextMut state currFlow a).1

/-- A run of `nextState` transitions: each element of `steps` is the
`(request, action)` pair fed to one `resolveNextStateFromAction` call; the run
stops at the first thrown error. -/
def runSteps (c : FlowController) (steps : List (TwilioWebhookRequest × Option Action))
    (state : SmsCookie) : Except String SmsCookie :=
  match steps with
  | [] => .ok state
  | (req, a) :: rest =>
    match resolveNextStateFromAction c req state a with
    | .error e => .error e
    | .ok s' => runSteps c rest s'

/-- `new` appends to `old` without disturbing it: the history-extension order. -/
def historyExtends (old new : List TaggedContext) : Prop :=
  ∃ tail, new = old ++ tail

/-! ## Concrete fixtures and result extractors -/

/-- An empty context snapshot. -/
def ctx0 : ActionContext := { fields := [], messageSid := [] }

/-- A one-step root flow named `root` with the single declared action `step1`. -/
def rootFlow : Flow :=
  { name := "root", steps := [{ actionName := "step1", resolver := fun _ _ => none }] }

/-- A one-step non-root flow named `flowA` with the declared action `a1`. -/
def flowA : Flow :=
  { name := "flowA", steps := [{ actionName := "a1", resolver := fun _ _ => none }] }

/-- An evaluated schema holding the root and one distinct flow. -/
def schemaRA : EvaluatedSchema := [("root", rootFlow), ("flowA", flowA)]

/-- A controller built without a schema. -/
def cNoSchema : FlowController :=
  { root := rootFlow, schema := none, testForExit := fun b => b == "exit" }

/-- A controller built with the two-flow schema. -/
def cWithSchema : FlowController :=
  { root := rootFlow, schema := some schemaRA, testForExit := fun b => b == "exit" }

/-- A concrete inbound request. -/
def req0 : TwilioWebhookRequest := { body := { Body := "hello" } }

/-- A freshly created cookie (`createSmsCookie`): unset flow, position `0`, empty
contexts, not answering, not complete. -/
def freshCookie : SmsCookie :=
  { createdAt := 0, fromNumber := "+15550001111", flow := none, flowContext := [],
    flowKey := 0, interactionContext := [], interactionComplete := false,
    interactionId := "i1", isComplete := false,
    question := { attempts := [], isAnswering := false } }

/-- The `flowKey` of a successful transition result. -/
def okFlowKey : Except String SmsCookie → Option Nat
  | .ok s => some s.flowKey
  | .error _ => none

/-- The `isComplete` flag of a successful transition result. -/
def okIsComplete : Except String SmsCookie → Option Bool
  | .ok s => some s.isComplete
  | .error _ => none

/-- The `flow` field of a successful transition result. -/
def okFlowName : Except String SmsCookie → Option (Option String)
  | .ok s => some s.flow
  | .error _ => none

/-! ## Frame lemmas for the cookie transition helpers -/

@[simp] lemma completeInteraction_interactionContext (s : SmsCookie) :
    (completeInteraction s).interactionContext = s.interactionContext := rfl

@[simp] lemma completeInteraction_flowKey (s : SmsCookie) :
    (completeInteraction s).flowKey = s.flowKey := rfl

@[simp] lemma completeInteraction_question (s : SmsCookie) :
    (completeInteraction s).question = s.question := rfl

@[simp] lemma completeInteraction_isComplete (s : SmsCookie) :
    (completeInteraction s).isComplete = true := rfl

@[simp] lemma addQuestionAttempt_interactionContext (s : SmsCookie) (x : String) :
    (addQuestionAttempt s x).interactionContext = s.interactionContext := rfl

@[simp] lemma addQuestionAttempt_flowKey (s : SmsCookie) (x : String) :
    (addQuestionAttempt s x).flowKey = s.flowKey := rfl

@[simp] lemma addQuestionAttempt_isComplete (s : SmsCookie) (x : String) :
    (addQuestionAttempt s x).isComplete = s.isComplete := rfl

@[simp] lemma addQuestionAttempt_flow (s : SmsCookie) (x : String) :
    (addQuestionAttempt s x).flow = s.flow := rfl

@[simp] lemma addQuestionAttempt_attempts (s : SmsCookie) (x : String) :
    (addQuestionAttempt s x).question.attempts = s.question.attempts ++ [x] := rfl

@[simp] lemma addQuestionAttempt_isAnswering (s : SmsCookie) (x : String) :
    (addQuestionAttempt s x).question.isAnswering = s.question.isAnswering := rfl

@[simp] lemma startQuestion_interactionContext (s : SmsCookie) :
    (startQuestion s).interactionContext = s.interactionContext := rfl

@[simp] lemma startQuestion_flowKey (s : SmsCookie) :
    (startQuestion s).flowKey = s.flowKey := rfl

@[simp] lemma startQuestion_flow (s : SmsCookie) :
    (startQuestion s).flow = s.flow := rfl

@[simp] lemma startQuestion_question (s : SmsCookie) :
    (startQuestion s).question = { attempts := [], isAnswering := true } := rfl

@[simp] lemma handleTrigger_flow (s : SmsCookie) (n : String) :
    (handleTrigger s n).flow = some n := rfl

@[simp] lemma handleTrigger_flowKey (s : SmsCookie) (n : String) :
    (handleTrigger s n).flowKey = 0 := rfl

@[simp] lemma handleTrigger_flowContext (s : SmsCookie) (n : String) :
    (handleTrigger s n).flowContext = [] := rfl

@[simp] lemma handleTrigger_interactionContext (s : SmsCookie) (n : String) :
    (handleTrigger s n).interactionContext = s.interactionContext := rfl

@[simp] lemma handleTrigger_question (s : SmsCookie) (n : String) :
    (handleTrigger s n).question = s.question := rfl

@[simp] lemma handleTrigger_isComplete (s : SmsCookie) (n : String) :
    (handleTrigger s n).isComplete = s.isComplete := rfl

@[simp] lemma flowFix_interactionContext (s : SmsCookie) (f : Flow) :
    (flowFix s f).interactionContext = s.interactionContext := by
  unfold flowFix; split <;> rfl

@[simp] lemma flowFix_flowKey (s : SmsCookie) (f : Flow) :
    (flowFix s f).flowKey = s.flowKey := by
  unfold flowFix; split <;> rfl

@[simp] lemma flowFix_question (s : SmsCookie) (f : Flow) :
    (flowFix s f).question = s.question := by
  unfold flowFix; split <;> rfl

@[simp] lemma flowFix_isComplete (s : SmsCookie) (f : Flow) :
    (flowFix s f).isComplete = s.isComplete := by
  unfold flowFix; split <;> rfl

@[simp] lemma flowFix_flowContext (s : SmsCookie) (f : Flow) :
    (flowFix s f).flowContext = s.flowContext := by
  unfold flowFix; split <;> rfl

@[simp] lemma applyUpdate_interactionContext (s : SmsCookie) (f : Flow) (a : Action) :
    (applyUpdate s f a).interactionContext
      = s.interactionContext
        ++ [{ context := getActionContext (flowFix s f) f a, flowName := f.name }] := by
  unfold applyUpdate
  simp

@[simp] lemma applyUpdate_flowKey (s : SmsCookie) (f : Flow) (a : Action) :
    (applyUpdate s f a).flowKey = s.flowKey := by
  unfold applyUpdate; simp

@[simp] lemma applyUpdate_question (s : SmsCookie) (f : Flow) (a : Action) :
    (applyUpdate s f a).question = s.question := by
  unfold applyUpdate; simp

@[simp] lemma applyUpdate_isComplete (s : SmsCookie) (f : Flow) (a : Action) :
    (applyUpdate s f a).isComplete = s.isComplete := by
  unfold applyUpdate; simp

lemma incrementFlowAction_of_eq {s : SmsCookie} {f : Flow}
    (h : s.flowKey + 1 = f.length) :
    incrementFlowAction s f = completeInteraction s := by
  unfold incrementFlowAction
  simp [h]

lemma incrementFlowAction_of_ne {s : SmsCookie} {f : Flow}
    (h : s.flowKey + 1 ≠ f.length) :
    incrementFlowAction s f = { s with flowKey := s.flowKey + 1 } := by
  unfold incrementFlowAction
  simp [h]

@[simp] lemma incrementFlowAction_interactionContext (s : SmsCookie) (f : Flow) :
    (incrementFlowAction s f).interactionContext = s.interactionContext := by
  unfold incrementFlowAction
  dsimp only
  split <;> rfl

@[simp] lemma incrementFlowAction_question (s : SmsCookie) (f : Flow) :
    (incrementFlowAction s f).question = s.question := by
  unfold incrementFlowAction
  dsimp only
  split <;> rfl

/-! ## Lemmas about `updateContext` -/

lemma updateContext_eq_ok {f : Flow} {a : Action} (s : SmsCookie)
    (h : f.hasActionName a.name = true) :
    updateContext s f a = .ok (applyUpdate s f a) := by
  unfold updateContext updateContextMut
  simp [h]

lemma updateContext_ok_elim {s : SmsCookie} {f : Flow} {a : Action} {s' : SmsCookie}
    (h : updateContext s f a = .ok s') :
    f.hasActionName a.name = true ∧ s' = applyUpdate s f a := by
  unfold updateContext updateContextMut at h
  rcases hb : f.hasActionName a.name with _ | _
  · simp [hb] at h
  · simp [hb] at h
    exact ⟨rfl, h.symm⟩

lemma updateContextMut_fst (s : SmsCookie) (f : Flow) (a : Action) :
    (updateContextMut s f a).1 = s
    ∨ (isFalsyName s.flow = true
        ∧ (updateContextMut s f a).1 = { s with flow := some f.name }) := by
  unfold updateContextMut
  split
  · exact .inl rfl
  · unfold flowFix
    split
    · next hfal => exact .inr ⟨hfal, rfl⟩
    · exact .inl rfl

lemma updateContextMut_fst_of_err {s : SmsCookie} {f : Flow} {a : Action} {e : String}
    (h : (updateContextMut s f a).2 = .error e) :
    (updateContextMut s f a).1 = s := by
  rcases hb : f.hasActionName a.name with _ | _
  · simp [updateContextMut, hb]
  · simp [updateContextMut, hb] at h

/-! ## Lemmas about `Except.map` -/

lemma exceptMap_ok {α β : Type} {g : α → β} {x : Except String α} {b : β}
    (h : x.map g = .ok b) : ∃ a, x = .ok a ∧ g a = b := by
  cases x with
  | error e => simp [Except.map] at h
  | ok a =>
    refine ⟨a, rfl, ?_⟩
    simpa [Except.map] using h

lemma exceptMap_err {α β : Type} {g : α → β} {x : Except String α} {e : String}
    (h : x.map g = .error e) : x = .error e := by
  cases x with
  | error e' => simpa [Except.map] using h
  | ok a => simp [Except.map] at h

/-! ## Claim theorems -/

/-- C10: `incrementFlowAction` completes the interaction without moving `flowKey`
when the incremented key equals the flow's length (it returns
`completeInteraction(state)` on the original state), and otherwise returns the
state with `flowKey` incremented and `isComplete` unchanged. -/
theorem claimC10 (s : SmsCookie) (f : Flow) :
    (s.flowKey + 1 = f.length →
      incrementFlowAction s f = completeInteraction s
      ∧ (incrementFlowAction s f).flowKey = s.flowKey
      ∧ (incrementFlowAction s f).isComplete = true)
    ∧ (s.flowKey + 1 ≠ f.length →
      incrementFlowAction s f = { s with flowKey := s.flowKey + 1 }
      ∧ (incrementFlowAction s f).isComplete = s.isComplete) := by
  constructor
  · intro h
    rw [incrementFlowAction_of_eq h]
    exact ⟨rfl, rfl, rfl⟩
  · intro h
    rw [incrementFlowAction_of_ne h]
    exact ⟨rfl, rfl⟩

/-- Witness for C10: advancing the fresh cookie (position `0`) in the one-step
root flow completes the interaction with the position left at `0`. -/
theorem claimC10_witness :
    incrementFlowAction freshCookie rootFlow = completeInteraction freshCookie
    ∧ (incrementFlowAction freshCookie rootFlow).flowKey = freshCookie.flowKey
    ∧ (incrementFlowAction freshCookie rootFlow).isComplete = true :=
  (claimC10 freshCookie rootFlow).1 (by decide)

/-- C8: for a completed cookie, `resolveActionFromState` returns no action,
whatever the controller, request, and user context. -/
theorem claimC8 (c : FlowController) (req : TwilioWebhookRequest) (state : SmsCookie)
    (u : UserCtx) (h : state.isComplete = true) :
    resolveActionFromState c req state u = .ok none := by
  unfold resolveActionFromState
  simp [h]

/-- Witness for C8 at a concrete completed cookie. -/
theorem claimC8_witness :
    resolveActionFromState cNoSchema req0 { freshCookie with isComplete := true } []
      = .ok none :=
  claimC8 cNoSchema req0 { freshCookie with isComplete := true } [] rfl

/-- C9: for an incomplete cookie whose inbound body matches the configured exit
test, `resolveActionFromState` returns an `Exit` action built from the raw inbound
body, for every controller, state and user context (in particular regardless of
`flowKey` and without consulting any step resolver). -/
theorem claimC9 (c : FlowController) (req : TwilioWebhookRequest) (state : SmsCookie)
    (u : UserCtx) (h1 : state.isComplete = false)
    (h2 : c.testForExit req.body.Body = true) :
    resolveActionFromState c req state u
      = .ok (some (.exit none req.body.Body { fields := [], messageSid := [] })) := by
  unfold resolveActionFromState
  simp [h1, h2]

/-- Witness for C9: the body `"exit"` matches `cNoSchema`'s exit test. -/
theorem claimC9_witness :
    resolveActionFromState cNoSchema { body := { Body := "exit" } } freshCookie []
      = .ok (some (.exit none "exit" { fields := [], messageSid := [] })) :=
  claimC9 cNoSchema { body := { Body := "exit" } } freshCookie [] rfl rfl

/-- C7: `getCurrentFlow` returns the root when the cookie's flow is unset (falsy)
or names the root; otherwise it fails with the invalid-flow-reference error when
there is no schema or the name is absent from it, and returns the schema's flow
when present. -/
theorem claimC7 (c : FlowController) (state : SmsCookie) :
    ((isFalsyName state.flow = true ∨ state.flow = some c.root.name) →
      getCurrentFlow c state = .ok c.root)
    ∧ (∀ n, state.flow = some n → n ≠ "" → n ≠ c.root.name →
        (c.schema = none →
          getCurrentFlow c state
            = .error ("Received invalid flow name in SMS cookie: " ++ n))
        ∧ (∀ sch, c.schema = some sch →
            (sch.lookup n = none →
              getCurrentFlow c state
                = .error ("Received invalid flow name in SMS cookie: " ++ n))
            ∧ (∀ f, sch.lookup n = some f → getCurrentFlow c state = .ok f))) := by
  constructor
  · intro h
    unfold getCurrentFlow
    rcases h with h | h
    · simp [h]
    · simp [h]
  · intro n hn hne hnr
    refine ⟨?_, ?_⟩
    · intro hs
      unfold getCurrentFlow
      simp [hn, hne, hnr, hs, isFalsyName]
    · intro sch hs
      refine ⟨?_, ?_⟩
      · intro hl
        unfold getCurrentFlow
        simp [hn, hne, hnr, hs, hl, isFalsyName]
      · intro f hl
        unfold getCurrentFlow
        simp [hn, hne, hnr, hs, hl, isFalsyName]

/-- Witness for C7: the fresh cookie (unset flow) resolves to the root. -/
theorem claimC7_witness :
    getCurrentFlow cNoSchema freshCookie = .ok rootFlow :=
  (claimC7 cNoSchema freshCookie).1 (Or.inl rfl)

/-- C5: a `Reply` or `Message` action resolved at the last position of the current
flow yields a completed state, with the position not advanced past the end (no
loop-back, no parent-flow return). -/
theorem claimC5 (c : FlowController) (req : TwilioWebhookRequest) (state : SmsCookie)
    (f : Flow) (n : String) (ctx : ActionContext) (a : Action)
    (hf : getCurrentFlow c state = .ok f)
    (ha : a = .reply (some n) ctx ∨ a = .message (some n) ctx)
    (hn : f.hasActionName (some n) = true)
    (hlast : state.flowKey + 1 = f.length) :
    ∃ s', resolveNextStateFromAction c req state (some a) = .ok s'
      ∧ s'.isComplete = true ∧ s'.flowKey = state.flowKey ∧ s'.flow ≠ none := by
  have hname : f.hasActionName a.name = true := by
    rcases ha with h | h <;> subst h <;> exact hn
  have hupd := updateContext_eq_ok (f := f) (a := a) state hname
  have hu : (applyUpdate state f a).flowKey + 1 = f.length := by simp [hlast]
  refine ⟨incrementFlowAction (applyUpdate state f a) f, ?_, ?_, ?_, ?_⟩
  · unfold resolveNextStateFromAction
    rw [hf]
    rcases ha with h | h <;> subst h <;> simp [hupd, Except.map]
  · rw [incrementFlowAction_of_eq hu]
    rfl
  · rw [incrementFlowAction_of_eq hu]
    simp
  · rw [incrementFlowAction_of_eq hu]
    unfold completeInteraction applyUpdate flowFix
    split
    · simp
    · next hfal =>
      dsimp only
      intro hnone
      exact hfal (by rw [hnone]; rfl)

/-- The `question.isAnswering` flag of a successful transition result. -/
def okIsAnswering : Except String SmsCookie → Option Bool
  | .ok s => some s.question.isAnswering
  | .error _ => none

/-- Counterexample to C1 as stated: with no `FlowSchema`, a `Trigger` whose target
equals the root's name is not permitted — `resolveNextStateFromAction` raises the
fatal no-schema error instead of succeeding. -/
theorem claimC1_cex :
    resolveNextStateFromAction cNoSchema req0 freshCookie
      (some (.trigger (some "step1") "root" ctx0))
      = .error "Cannot use Trigger action without a defined Flow schema" := rfl

/-- C1 (amended): a `Trigger` succeeds exactly when the controller has a schema
and the target equals the root's name or exists in the schema; with no schema
every `Trigger` raises the fatal no-schema error (even one targeting the root),
and with a schema an unknown target raises the fatal unknown-flow error.  On
success the trigger's context is recorded under the current flow (appending one
tagged snapshot to the interaction history, prior entries preserved in order) and
the result has `flow` set to the target, position `0` and empty `flowContext`,
with the question sub-state and completion flag untouched. -/
theorem claimC1 (c : FlowController) (req : TwilioWebhookRequest) (state : SmsCookie)
    (nm : Option String) (tname : String) (ctx : ActionContext) (f : Flow)
    (hf : getCurrentFlow c state = .ok f) :
    (c.schema = none →
      resolveNextStateFromAction c req state (some (.trigger nm tname ctx))
        = .error "Cannot use Trigger action without a defined Flow schema")
    ∧ (∀ sch, c.schema = some sch →
        (¬(tname = c.root.name ∨ schemaHas sch tname = true) →
          resolveNextStateFromAction c req state (some (.trigger nm tname ctx))
            = .error "Trigger constructors expect a name of an existing Flow")
        ∧ ((tname = c.root.name ∨ schemaHas sch tname = true) →
            f.hasActionName nm = true →
            ∃ s', resolveNextStateFromAction c req state
                    (some (.trigger nm tname ctx)) = .ok s'
              ∧ s'.flow = some tname ∧ s'.flowKey = 0 ∧ s'.flowContext = []
              ∧ s'.question = state.question ∧ s'.isComplete = state.isComplete
              ∧ s'.interactionContext = state.interactionContext
                  ++ [{ context := getActionContext (flowFix state f) f
                          (.trigger nm tname ctx),
                        flowName := f.name }])) := by
  refine ⟨?_, ?_⟩
  · intro hs
    have hcond : (isFalsyName state.flow || state.flow == some c.root.name) = true := by
      by_contra hc
      rw [Bool.not_eq_true] at hc
      unfold getCurrentFlow at hf
      simp [hc, hs] at hf
    unfold resolveNextStateFromAction
    rw [hf]
    simp [hcond, hs]
  · intro sch hs
    have h1 : ((isFalsyName state.flow || state.flow == some c.root.name)
        && c.schema.isNone) = false := by simp [hs]
    refine ⟨?_, ?_⟩
    · intro hnot
      push_neg at hnot
      have h2 : (tname == c.root.name
          || c.schema.elim false fun sch' => schemaHas sch' tname) = false := by
        simp [hs, hnot.1, hnot.2]
      unfold resolveNextStateFromAction
      rw [hf]
      simp [h1, h2]
    · intro hor hname
      have h2 : (tname == c.root.name
          || c.schema.elim false fun sch' => schemaHas sch' tname) = true := by
        rcases hor with h | h <;> simp [hs, h]
      have hupd := updateContext_eq_ok (f := f) (a := .trigger nm tname ctx) state hname
      refine ⟨handleTrigger (applyUpdate state f (.trigger nm tname ctx)) tname,
        ?_, by simp, by simp, by simp, by simp, by simp, by simp⟩
      unfold resolveNextStateFromAction
      rw [hf]
      simp [h1, h2, hupd, Except.map]

/-- Witness for C1 (amended): with a schema, a trigger to the declared flow
`flowA` switches the active flow there. -/
theorem claimC1_witness :
    okFlowName (resolveNextStateFromAction cWithSchema req0 freshCookie
      (some (.trigger (some "step1") "flowA" ctx0))) = some (some "flowA") := by
  obtain ⟨s', hs, hflow, _⟩ :=
    ((claimC1 cWithSchema req0 freshCookie (some "step1") "flowA" ctx0 rootFlow
      rfl).2 schemaRA rfl).2 (Or.inr (by decide)) (by decide)
  simp [hs, okFlowName, hflow]

/-- A cookie whose question sub-state is answering, at position `0`. -/
def answeringCookie : SmsCookie :=
  { freshCookie with question := { attempts := [], isAnswering := true } }

/-- Counterexample to C3 as stated: resolving an answered `Question` from an
answering cookie at the last position of the flow does not advance the position
by one (the interaction completes with the position unchanged). -/
theorem claimC3_cex :
    okFlowKey (resolveNextStateFromAction cNoSchema req0 answeringCookie
      (some (.question (some "step1") true false false ctx0 [])))
      ≠ some (answeringCookie.flowKey + 1) := by decide

/-- C3 (amended): a pending (neither answered nor failed) `Question` resolved
from a non-answering cookie turns `isAnswering` on, clears the attempts and
leaves the position unchanged; an answered `Question` resolved from an answering
cookie appends exactly one attempt (the raw inbound body) and advances the
position by exactly one when the incremented position is still below the flow's
length — when it reaches the length the attempt is still appended but the
position stays and the interaction completes instead. -/
theorem claimC3 (c : FlowController) (req : TwilioWebhookRequest) (state : SmsCookie)
    (f : Flow) (nm : Option String) (ans fail cof : Bool) (ctx : ActionContext)
    (sid : List String)
    (hf : getCurrentFlow c state = .ok f)
    (hname : f.hasActionName nm = true) :
    (state.question.isAnswering = false → ans = false → fail = false →
      ∃ s', resolveNextStateFromAction c req state
              (some (.question nm ans fail cof ctx sid)) = .ok s'
        ∧ s'.question.isAnswering = true ∧ s'.question.attempts = []
        ∧ s'.flowKey = state.flowKey)
    ∧ (state.question.isAnswering = true → ans = true →
      ∃ s', resolveNextStateFromAction c req state
              (some (.question nm ans fail cof ctx sid)) = .ok s'
        ∧ s'.question.attempts = state.question.attempts ++ [req.body.Body]
        ∧ (state.flowKey + 1 ≠ f.length →
            s'.flowKey = state.flowKey + 1 ∧ s'.isComplete = state.isComplete)
        ∧ (state.flowKey + 1 = f.length →
            s'.flowKey = state.flowKey ∧ s'.isComplete = true)) := by
  refine ⟨?_, ?_⟩
  · intro hqa hans hfail
    subst hans; subst hfail
    have hupd := updateContext_eq_ok (f := f)
      (a := .question nm false false cof ctx sid) (startQuestion state) hname
    refine ⟨applyUpdate (startQuestion state) f (.question nm false false cof ctx sid),
      ?_, by simp, by simp, by simp⟩
    unfold resolveNextStateFromAction
    rw [hf]
    simp [hqa, hupd]
  · intro hqa hans
    subst hans
    have hupd := updateContext_eq_ok (f := f)
      (a := .question nm true fail cof ctx sid)
      (addQuestionAttempt state req.body.Body) hname
    refine ⟨incrementFlowAction
      (applyUpdate (addQuestionAttempt state req.body.Body) f
        (.question nm true fail cof ctx sid)) f, ?_, by simp, ?_, ?_⟩
    · unfold resolveNextStateFromAction
      rw [hf]
      simp [hqa, hupd, Except.map]
    · intro hne
      have hne' : (applyUpdate (addQuestionAttempt state req.body.Body) f
          (.question nm true fail cof ctx sid)).flowKey + 1 ≠ f.length := by
        simpa using hne
      rw [incrementFlowAction_of_ne hne']
      constructor <;> simp
    · intro heq
      have heq' : (applyUpdate (addQuestionAttempt state req.body.Body) f
          (.question nm true fail cof ctx sid)).flowKey + 1 = f.length := by
        simpa using heq
      rw [incrementFlowAction_of_eq heq']
      constructor <;> simp

/-- Witness for C3 (amended): a pending question at the root's only step turns
answering on. -/
theorem claimC3_witness :
    okIsAnswering (resolveNextStateFromAction cNoSchema req0 freshCookie
      (some (.question (some "step1") false false false ctx0 []))) = some true := by
  obtain ⟨s', hs, hia, _, _⟩ :=
    (claimC3 cNoSchema req0 freshCookie rootFlow (some "step1") false false false
      ctx0 [] rfl (by decide)).1 rfl rfl rfl
  simp [hs, okIsAnswering, hia]

/-- Counterexample to C4 as stated: a failed `Question` with
`continueOnFail = true` at the last position does not advance the position by
one — the interaction completes with the position unchanged. -/
theorem claimC4_cex :
    okFlowKey (resolveNextStateFromAction cNoSchema req0 freshCookie
      (some (.question (some "step1") false true true ctx0 [])))
      ≠ some (freshCookie.flowKey + 1)
    ∧ okIsComplete (resolveNextStateFromAction cNoSchema req0 freshCookie
      (some (.question (some "step1") false true true ctx0 []))) = some true := by
  constructor <;> decide

/-- C4 (amended): a `Question` evaluated as failed (and not answered) records its
context; with `continueOnFail = false` the interaction completes, and with
`continueOnFail = true` the position advances by one when the incremented
position is still below the flow's length — when it reaches the length the
interaction completes with the position unchanged. -/
theorem claimC4 (c : FlowController) (req : TwilioWebhookRequest) (state : SmsCookie)
    (f : Flow) (nm : Option String) (cof : Bool) (ctx : ActionContext)
    (sid : List String)
    (hf : getCurrentFlow c state = .ok f)
    (hname : f.hasActionName nm = true) :
    (cof = false →
      ∃ s', resolveNextStateFromAction c req state
              (some (.question nm false true cof ctx sid)) = .ok s'
        ∧ s'.isComplete = true
        ∧ ∃ e, s'.interactionContext = state.interactionContext ++ [e])
    ∧ (cof = true →
      ∃ s', resolveNextStateFromAction c req state
              (some (.question nm false true cof ctx sid)) = .ok s'
        ∧ (state.flowKey + 1 ≠ f.length → s'.flowKey = state.flowKey + 1)
        ∧ (state.flowKey + 1 = f.length →
            s'.flowKey = state.flowKey ∧ s'.isComplete = true)
        ∧ ∃ e, s'.interactionContext = state.interactionContext ++ [e]) := by
  rcases hqa : state.question.isAnswering with _ | _
  · refine ⟨?_, ?_⟩
    · intro hcof; subst hcof
      have hupd := updateContext_eq_ok (f := f)
        (a := .question nm false true false ctx sid) state hname
      refine ⟨completeInteraction
        (applyUpdate state f (.question nm false true false ctx sid)),
        ?_, rfl, ⟨⟨getActionContext (flowFix state f) f
            (.question nm false true false ctx sid), f.name⟩, by simp⟩⟩
      unfold resolveNextStateFromAction
      rw [hf]
      simp [hqa, hupd, Except.map]
    · intro hcof; subst hcof
      have hupd := updateContext_eq_ok (f := f)
        (a := .question nm false true true ctx sid) state hname
      refine ⟨incrementFlowAction
        (applyUpdate state f (.question nm false true true ctx sid)) f,
        ?_, ?_, ?_, ⟨⟨getActionContext (flowFix state f) f
            (.question nm false true true ctx sid), f.name⟩, by simp⟩⟩
      · unfold resolveNextStateFromAction
        rw [hf]
        simp [hqa, hupd, Except.map]
      · intro hne
        have hne' : (applyUpdate state f
            (.question nm false true true ctx sid)).flowKey + 1 ≠ f.length := by
          simpa using hne
        rw [incrementFlowAction_of_ne hne']
        simp
      · intro heq
        have heq' : (applyUpdate state f
            (.question nm false true true ctx sid)).flowKey + 1 = f.length := by
          simpa using heq
        rw [incrementFlowAction_of_eq heq']
        constructor <;> simp
  · refine ⟨?_, ?_⟩
    · intro hcof; subst hcof
      have hupd := updateContext_eq_ok (f := f)
        (a := .question nm false true false ctx sid)
        (addQuestionAttempt state req.body.Body) hname
      refine ⟨completeInteraction
        (applyUpdate (addQuestionAttempt state req.body.Body) f
          (.question nm false true false ctx sid)),
        ?_, rfl, ⟨⟨getActionContext
            (flowFix (addQuestionAttempt state req.body.Body) f) f
            (.question nm false true false ctx sid), f.name⟩, by simp⟩⟩
      unfold resolveNextStateFromAction
      rw [hf]
      simp [hqa, hupd, Except.map]
    · intro hcof; subst hcof
      have hupd := updateContext_eq_ok (f := f)
        (a := .question nm false true true ctx sid)
        (addQuestionAttempt state req.body.Body) hname
      refine ⟨incrementFlowAction
        (applyUpdate (addQuestionAttempt state req.body.Body) f
          (.question nm false true true ctx sid)) f,
        ?_, ?_, ?_, ⟨⟨getActionContext
            (flowFix (addQuestionAttempt state req.body.Body) f) f
            (.question nm false true true ctx sid), f.name⟩, by simp⟩⟩
      · unfold resolveNextStateFromAction
        rw [hf]
        simp [hqa, hupd, Except.map]
      · intro hne
        have hne' : (applyUpdate (addQuestionAttempt state req.body.Body) f
            (.question nm false true true ctx sid)).flowKey + 1 ≠ f.length := by
          simpa using hne
        rw [incrementFlowAction_of_ne hne']
        simp
      · intro heq
        have heq' : (applyUpdate (addQuestionAttempt state req.body.Body) f
            (.question nm false true true ctx sid)).flowKey + 1 = f.length := by
          simpa using heq
        rw [incrementFlowAction_of_eq heq']
        constructor <;> simp

/-- Witness for C4 (amended): a failed question with `continueOnFail = false`
completes the interaction. -/
theorem claimC4_witness :
    okIsComplete (resolveNextStateFromAction cNoSchema req0 freshCookie
      (some (.question (some "step1") false true false ctx0 []))) = some true := by
  obtain ⟨s', hs, hc, _⟩ :=
    (claimC4 cNoSchema req0 freshCookie rootFlow (some "step1") false ctx0 []
      rfl (by decide)).1 rfl
  simp [hs, okIsComplete, hc]

/-- Witness for C5: a `Reply` at the only position of the root flow completes the
interaction. -/
theorem claimC5_witness :
    okIsComplete (resolveNextStateFromAction cNoSchema req0 freshCookie
      (some (.reply (some "step1") ctx0))) = some true := by
  obtain ⟨s', hs, hc, _, _⟩ :=
    claimC5 cNoSchema req0 freshCookie rootFlow "step1" ctx0
      (.reply (some "step1") ctx0) rfl (Or.inl rfl) (by decide) (by decide)
  simp [hs, okIsComplete, hc]

/-- A successful `updateContext` appends exactly one entry to the interaction
history of the cookie it was applied to. -/
lemma hist_ok {X : SmsCookie} {f : Flow} {a : Action} {u : SmsCookie}
    (h : updateContext X f a = .ok u) :
    ∃ e, u.interactionContext = X.interactionContext ++ [e] := by
  obtain ⟨_, hu⟩ := updateContext_ok_elim h
  exact ⟨⟨getActionContext (flowFix X f) f a, f.name⟩, by rw [hu]; simp⟩

/-- One successful `resolveNextStateFromAction` step only ever appends to the
interaction history. -/
lemma nextState_extends {c : FlowController} {req : TwilioWebhookRequest}
    {state : SmsCookie} {a : Option Action} {s' : SmsCookie}
    (h : resolveNextStateFromAction c req state a = .ok s') :
    historyExtends state.interactionContext s'.interactionContext := by
  unfold resolveNextStateFromAction at h
  rcases hf : getCurrentFlow c state with er | f <;> rw [hf] at h
  · simp at h
  · rcases a with _ | a
    · have h' : Except.ok (completeInteraction state) = Except.ok s' := h
      rw [Except.ok.injEq] at h'
      exact ⟨[], by rw [← h']; simp⟩
    · rcases a with ⟨nm, ctx⟩ | ⟨nm, ctx⟩ | ⟨nm, ans, fail, cof, ctx, sid⟩ | ⟨nm, tn, ctx⟩ | ⟨nm, b, ctx⟩
      · have h' : (updateContext state f (Action.message nm ctx)).map
            (incrementFlowAction · f) = Except.ok s' := h
        obtain ⟨u, hu, hg⟩ := exceptMap_ok h'
        obtain ⟨e, he⟩ := hist_ok hu
        exact ⟨[e], by rw [← hg]; simp [he]⟩
      · have h' : (updateContext state f (Action.reply nm ctx)).map
            (incrementFlowAction · f) = Except.ok s' := h
        obtain ⟨u, hu, hg⟩ := exceptMap_ok h'
        obtain ⟨e, he⟩ := hist_ok hu
        exact ⟨[e], by rw [← hg]; simp [he]⟩
      · rcases ans with _ | _ <;> rcases fail with _ | _ <;> rcases cof with _ | _ <;>
          rcases hqa : state.question.isAnswering with _ | _ <;>
          simp only [hqa, addQuestionAttempt_isAnswering, Bool.false_eq_true,
            eq_self_iff_true, if_true, if_false] at h <;>
          first
          | (obtain ⟨u, hu, hg⟩ := exceptMap_ok h
             obtain ⟨e, he⟩ := hist_ok hu
             exact ⟨[e], by rw [← hg]; simp [he]⟩)
          | (obtain ⟨e, he⟩ := hist_ok h
             exact ⟨[e], by simp [he]⟩)
      · dsimp only at h
        rcases hc1 : ((isFalsyName state.flow || state.flow == some c.root.name)
            && c.schema.isNone) with _ | _ <;> rw [hc1] at h
        · rcases hc2 : (!(tn == c.root.name
              || c.schema.elim false fun sch => schemaHas sch tn)) with _ | _ <;>
            rw [hc2] at h
          · have h' : (updateContext state f (Action.trigger nm tn ctx)).map
                (fun s => handleTrigger s tn) = Except.ok s' := h
            obtain ⟨u, hu, hg⟩ := exceptMap_ok h'
            obtain ⟨e, he⟩ := hist_ok hu
            exact ⟨[e], by rw [← hg]; simp [he]⟩
          · simp at h
        · simp at h
      · have h' : (updateContext state f (Action.exit nm b ctx)).map
            completeInteraction = Except.ok s' := h
        obtain ⟨u, hu, hg⟩ := exceptMap_ok h'
        obtain ⟨e, he⟩ := hist_ok hu
        exact ⟨[e], by rw [← hg]; simp [he]⟩

/-- C6: across any run of `nextState` transitions, the interaction history of the
result extends the starting history: every previously appended entry is preserved
at its index and in order, so the length never decreases and entries are never
reordered. -/
theorem claimC6 (c : FlowController)
    (steps : List (TwilioWebhookRequest × Option Action)) (state s' : SmsCookie)
    (h : runSteps c steps state = .ok s') :
    historyExtends state.interactionContext s'.interactionContext := by
  induction steps generalizing state with
  | nil =>
    have h' : Except.ok state = Except.ok s' := h
    rw [Except.ok.injEq] at h'
    exact ⟨[], by rw [← h']; simp⟩
  | cons p rest ih =>
    obtain ⟨r, a⟩ := p
    unfold runSteps at h
    rcases hr : resolveNextStateFromAction c r state a with er | mid <;> rw [hr] at h
    · simp at h
    · obtain ⟨t1, ht1⟩ := nextState_extends hr
      obtain ⟨t2, ht2⟩ := ih mid h
      exact ⟨t1 ++ t2, by rw [ht2, ht1, List.append_assoc]⟩

/-- The cookie produced by resolving a `Reply` named `step1` from the fresh cookie
under `cNoSchema` (the interaction completes at the root's only step). -/
def cookieAfterReply : SmsCookie :=
  { freshCookie with
    flow := some "root"
    flowContext := [("step1", ctx0)]
    interactionContext := [{ context := ctx0, flowName := "root" }]
    isComplete := true }

/-- Witness for C6 on a concrete one-step run. -/
theorem claimC6_witness :
    historyExtends freshCookie.interactionContext
      cookieAfterReply.interactionContext :=
  claimC6 cNoSchema [(req0, some (.reply (some "step1") ctx0))] freshCookie
    cookieAfterReply (by rfl)

/-- Counterexample to C2 as stated: `resolveNextStateFromAction` does mutate its
input on a success path — resolving a `Reply` from the fresh cookie (whose `flow`
field is unset) leaves the caller's object with `flow` set to the root's name. -/
theorem claimC2_cex :
    resolveNextStateInputAfter cNoSchema req0 freshCookie
      (some (.reply (some "step1") ctx0))
      = { freshCookie with flow := some "root" }
    ∧ resolveNextStateInputAfter cNoSchema req0 freshCookie
      (some (.reply (some "step1") ctx0)) ≠ freshCookie :=
  ⟨rfl, by decide⟩

/-- C2 (amended): `resolveNextStateFromAction` leaves every logical field of its
input unchanged except `flow`: the input comes back either untouched, or — only
when its `flow` field was unset/empty — with `flow` set in place to the current
flow's name (`updateContext`'s in-place assignment).  On every error path the
input is untouched. -/
theorem claimC2 (c : FlowController) (req : TwilioWebhookRequest) (state : SmsCookie)
    (a : Option Action) :
    (resolveNextStateInputAfter c req state a = state
      ∨ (isFalsyName state.flow = true ∧ ∃ f, getCurrentFlow c state = .ok f
          ∧ resolveNextStateInputAfter c req state a
              = { state with flow := some f.name }))
    ∧ (∀ e, resolveNextStateFromAction c req state a = .error e →
        resolveNextStateInputAfter c req state a = state) := by
  constructor
  · unfold resolveNextStateInputAfter
    rcases hf : getCurrentFlow c state with er | f
    · exact .inl rfl
    · rcases a with _ | a
      · exact .inl rfl
      · rcases a with ⟨nm, ctx⟩ | ⟨nm, ctx⟩ | ⟨nm, ans, fail, cof, ctx, sid⟩ | ⟨nm, tn, ctx⟩ | ⟨nm, b, ctx⟩
        · rcases updateContextMut_fst state f (Action.message nm ctx) with hm | ⟨hfal, hm⟩
          · exact .inl hm
          · exact .inr ⟨hfal, f, rfl, hm⟩
        · rcases updateContextMut_fst state f (Action.reply nm ctx) with hm | ⟨hfal, hm⟩
          · exact .inl hm
          · exact .inr ⟨hfal, f, rfl, hm⟩
        · rcases hqa : state.question.isAnswering with _ | _
          · rcases hb : (ans || fail) with _ | _
            · left
              simp [hqa, hb]
            · simp only [hqa, hb, Bool.false_eq_true, eq_self_iff_true, if_true,
                if_false]
              rcases updateContextMut_fst state f
                  (Action.question nm ans fail cof ctx sid) with hm | ⟨hfal, hm⟩
              · exact .inl hm
              · exact .inr ⟨hfal, f, rfl, hm⟩
          · left
            simp [hqa]
        · rcases hc1 : ((isFalsyName state.flow || state.flow == some c.root.name)
              && c.schema.isNone) with _ | _
          · rcases hc2 : (!(tn == c.root.name
                || c.schema.elim false fun sch => schemaHas sch tn)) with _ | _
            · simp only [hc1, hc2, Bool.false_eq_true, if_false]
              rcases updateContextMut_fst state f (Action.trigger nm tn ctx)
                  with hm | ⟨hfal, hm⟩
              · exact .inl hm
              · exact .inr ⟨hfal, f, rfl, hm⟩
            · left
              simp [hc1, hc2]
          · left
            simp [hc1]
        · rcases updateContextMut_fst state f (Action.exit nm b ctx) with hm | ⟨hfal, hm⟩
          · exact .inl hm
          · exact .inr ⟨hfal, f, rfl, hm⟩
  · intro e he
    unfold resolveNextStateFromAction at he
    unfold resolveNextStateInputAfter
    rcases hf : getCurrentFlow c state with er | f
    · rfl
    · rw [hf] at he
      rcases a with _ | a
      · simp at he
      · rcases a with ⟨nm, ctx⟩ | ⟨nm, ctx⟩ | ⟨nm, ans, fail, cof, ctx, sid⟩ | ⟨nm, tn, ctx⟩ | ⟨nm, b, ctx⟩
        · have he' : (updateContext state f (Action.message nm ctx)).map
              (incrementFlowAction · f) = Except.error e := he
          exact updateContextMut_fst_of_err (exceptMap_err he')
        · have he' : (updateContext state f (Action.reply nm ctx)).map
              (incrementFlowAction · f) = Except.error e := he
          exact updateContextMut_fst_of_err (exceptMap_err he')
        · rcases ans with _ | _ <;> rcases fail with _ | _ <;> rcases cof with _ | _ <;>
            rcases hqa : state.question.isAnswering with _ | _ <;>
            simp only [hqa, addQuestionAttempt_isAnswering, Bool.false_eq_true,
              Bool.true_or, Bool.false_or, Bool.or_self,
              eq_self_iff_true, if_true, if_false] at he ⊢ <;>
            first
            | rfl
            | exact updateContextMut_fst_of_err (exceptMap_err he)
        · rcases hc1 : ((isFalsyName state.flow || state.flow == some c.root.name)
              && c.schema.isNone) with _ | _
          · rcases hc2 : (!(tn == c.root.name
                || c.schema.elim false fun sch => schemaHas sch tn)) with _ | _
            · simp only [hc1, hc2, Bool.false_eq_true, if_false] at he ⊢
              exact updateContextMut_fst_of_err (exceptMap_err he)
            · simp [hc1, hc2]
          · simp [hc1]
        · have he' : (updateContext state f (Action.exit nm b ctx)).map
              completeInteraction = Except.error e := he
          exact updateContextMut_fst_of_err (exceptMap_err he')

/-- Witness for C2 (amended) on an error path: an invalid flow reference throws
and the input object is untouched. -/
theorem claimC2_witness :
    resolveNextStateInputAfter cNoSchema req0
      { freshCookie with flow := some "ghost" } none
      = { freshCookie with flow := some "ghost" } :=
  (claimC2 cNoSchema req0 { freshCookie with flow := some "ghost" } none).2
    ("Received invalid flow name in SMS cookie: " ++ "ghost") rfl

end Twilly
